import Mathlib

/-!
Verification of the gridfig layout/styling engine.

Shallow embedding of the relevant source modules:
* `Gridfig`          — shared value model (Python dicts as insertion-ordered
                       association lists), the data model (`DataContainer`,
                       `Panel`, `DataGrid`) and `StyleRule.__call__`
                       (identical in `style_elements.py` and `styles.py`).
* `StyleElements`    — `gridfig/style/style_elements.py` (`StyleElement`,
                       `FigArgs`, `PanelArgs`, `VizArgs`, `RowLabel`,
                       `ColLabel`).
* `Styles`           — `gridfig/style/styles.py` (`FigSE`, `Layout`,
                       `PanelSE`, `StyleManager.getStyleGrid`).
* `PyHeap`           — a store-passing model of `styles.py` `FigSE.getStyles`
                       used for the mutation/aliasing (frame) claims.
* `MplBackend`       — `gridfig/backend/mpl.py` (`MPL._getFigsize`,
                       `MPL.makeFig` geometry), with Python list semantics
                       (`list * int` is repetition) made explicit.
-/

namespace Gridfig

/-- Python values stored in style dictionaries: ints, floats (modelled as
rationals), strings, 2-tuples of numbers, lists of numbers, booleans. -/
inductive Val where
  | vInt  : Int → Val
  | vNum  : Rat → Val
  | vStr  : String → Val
  | vPair : Rat → Rat → Val
  | vList : List Rat → Val
  | vBool : Bool → Val
deriving DecidableEq

/-- A Python dict, modelled as an insertion-ordered association list with
distinct keys (Python dicts preserve insertion order). -/
abbrev Dict := List (String × Val)

/-- Dict lookup: `d[k]` as an `Option`. -/
def lookup (d : Dict) (k : String) : Option Val :=
  (d.find? (fun kv => kv.1 = k)).map (fun kv => kv.2)

/-- `d[k] = v`: overwrite in place if the key exists (keeping its position),
otherwise append at the end — Python dict assignment. -/
def setKey (d : Dict) (k : String) (v : Val) : Dict :=
  if d.any (fun kv => kv.1 = k) then
    d.map (fun kv => if kv.1 = k then (k, v) else kv)
  else
    d ++ [(k, v)]

/-- Python `d.update(e)`: assign every pair of `e` into `d`, in order. -/
def update (d e : Dict) : Dict :=
  e.foldl (fun acc kv => setKey acc kv.1 kv.2) d

/-- A data container: plotting properties and a list of plot-type tags
(`data_container.py`; the pandas data itself plays no role in styling). -/
structure DataContainer where
  props : List (String × Val)
  plot_types : List String

instance : Inhabited DataContainer := ⟨⟨[], []⟩⟩

/-- `DataContainer.hasProp`. -/
def DataContainer.hasProp (dc : DataContainer) (k : String) : Bool :=
  (dc.props.find? (fun kv => kv.1 = k)).isSome

/-- `DataContainer.getProp`: the stored value, `"_na_"` when absent. -/
def DataContainer.getProp (dc : DataContainer) (k : String) : Val :=
  match (dc.props.find? (fun kv => kv.1 = k)).map (fun kv => kv.2) with
  | some v => v
  | none => Val.vStr "_na_"

/-- A panel: `panel.py`'s `Panel` (a list of data containers with a compared
property), extended with the `axis_types` tag list that
`style_elements.PanelArgs.getStyles` reads off it. -/
structure Panel where
  pprop : String
  axis_types : List String
  dcs : List DataContainer

instance : Inhabited Panel := ⟨⟨"_na_", [], []⟩⟩

/-- A data grid: 2-D arrangement of panels (`data_grid.py`), extended with
the `fig_type` tag list that `style_elements.FigArgs.getStyles` reads off
it.  `panels` is total; style queries only use in-range indices. -/
structure DataGrid where
  nrows : Nat
  ncols : Nat
  fig_type : List String
  panels : Nat → Nat → Panel

/-- One positional argument of `StyleRule.__call__` (Python `*args`). -/
inductive CallArg where
  | dgArg : DataGrid → CallArg
  | intArg : Int → CallArg
  | otherArg : CallArg

/-- Python exceptions raised by `StyleRule.__call__`. -/
inductive PyErr where
  | valueErr : String → PyErr
  | typeErr : String → PyErr
deriving DecidableEq

def CallArg.isDG : CallArg → Bool
  | CallArg.dgArg _ => true
  | _ => false

def CallArg.isInt : CallArg → Bool
  | CallArg.intArg _ => true
  | _ => false

/-- A `StyleRule`: a list of condition predicates over the call arguments,
plus the style arguments it contributes when every condition holds. -/
structure Rule where
  condition : List (List CallArg → Bool)
  args : Dict

/-- The conditional part of `StyleRule.__call__`: the stored mapping when
every condition returns `True`, the empty dict as soon as one is `False`. -/
def ruleFire (r : Rule) (xs : List CallArg) : Dict :=
  if r.condition.all (fun c => c xs) then r.args else []

/-- `StyleRule.__call__` (identical in `styles.py` lines 39–66 and
`style_elements.py` lines 34–61): arity must be 1, 3 or 4 (`ValueError`
otherwise), the first argument must be a `DataGrid` (`TypeError`), the
second/third and fourth must be ints, all checked before any condition is
evaluated. -/
def ruleCall (r : Rule) (xs : List CallArg) : Except PyErr Dict :=
  let nargs := xs.length
  if ¬ (nargs = 1 ∨ nargs = 3 ∨ nargs = 4) then
    Except.error (PyErr.valueErr "Expected arguments of length 1, 3, or 4.")
  else if ¬ (xs.getD 0 CallArg.otherArg).isDG then
    Except.error (PyErr.typeErr "First argument must be a DataGrid object.")
  else if 3 ≤ nargs ∧
      ¬ ((xs.getD 1 CallArg.otherArg).isInt ∧ (xs.getD 2 CallArg.otherArg).isInt) then
    Except.error (PyErr.typeErr "Second and third arguments must be integers.")
  else if nargs = 4 ∧ ¬ (xs.getD 3 CallArg.otherArg).isInt then
    Except.error (PyErr.typeErr "Fourth argument must be an integer.")
  else
    Except.ok (ruleFire r xs)

end Gridfig

namespace StyleElements

open Gridfig

/-- A style element of `style_elements.py`: default args, rules, and the
value-keyed `type_style` table. -/
structure SElem where
  args : Dict
  rules : List Rule
  type_style : List (String × Dict)

/-- `StyleElement.getStyles(dg)` (style_elements.py lines 113–127): deep-copy
the defaults, then merge each rule's result in insertion order.  Rules are
invoked with the single argument `dg`.  Values are immutable in this model,
so `copy.deepcopy` is content-preserving identity. -/
def styleElementGetStyles (elem : SElem) (dg : DataGrid) : Dict :=
  elem.rules.foldl (fun acc r => update acc (ruleFire r [CallArg.dgArg dg])) elem.args

/-- The tag loop shared by `FigArgs`/`PanelArgs`/`VizArgs` `getStyles`: for
each classification tag in order, merge its `type_style` entry if present,
otherwise emit a (printed) warning and skip the tag.  Returns the merged
dict together with the warnings in emission order. -/
def applyTags (ts : List (String × Dict)) (warn : String → String) :
    Dict → List String → Dict × List String
  | acc, [] => (acc, [])
  | acc, t :: rest =>
    match (ts.find? (fun kv => kv.1 = t)).map (fun kv => kv.2) with
    | some ov => applyTags ts warn (update acc ov) rest
    | none =>
      let r := applyTags ts warn acc rest
      (r.1, warn t :: r.2)

/-- The warning printed by `FigArgs.getStyles` for an unrecognized figure
type (quotes around the tag elided). -/
def warnFig (t : String) : String :=
  "Warning: Figure type " ++ t ++ " not found in type_style."

/-- The warning printed by `PanelArgs.getStyles` for an unrecognized axis
type. -/
def warnAxis (t : String) : String :=
  "Warning: Axis type " ++ t ++ " not found in type_style."

/-- The warning printed by `VizArgs.getStyles` for an unrecognized plot
type. -/
def warnPlot (t : String) : String :=
  "Warning: Plot type " ++ t ++ " not found for this panel."

/-- `FigArgs.getStyles` (style_elements.py lines 138–150): defaults+rules
first (via the superclass), then the `fig_type` tag overrides. -/
def figArgsGetStyles (elem : SElem) (dg : DataGrid) : Dict × List String :=
  applyTags elem.type_style warnFig (styleElementGetStyles elem dg) dg.fig_type

/-- `PanelArgs.getStyles` (style_elements.py lines 161–175): defaults+rules
first (rules still receive only `dg`), then the panel's `axis_types` tag
overrides. -/
def panelArgsGetStyles (elem : SElem) (dg : DataGrid) (i j : Nat) : Dict × List String :=
  applyTags elem.type_style warnAxis (styleElementGetStyles elem dg) ((dg.panels i j).axis_types)

/-- A `VizArgs` element (style_elements.py lines 178–278): additionally
carries the `panel_style` two-level table. -/
structure VizElem where
  args : Dict
  rules : List Rule
  type_style : List (String × Dict)
  panel_style : List (String × List (Val × Dict))

/-- `VizArgs.getStyles` (style_elements.py lines 249–278): defaults, then
rules (called with `(dg, i, j, k)`), then `plot_types` tag overrides, then
the `panel_style` override keyed by the panel property value. -/
def vizArgsGetStyles (elem : VizElem) (dg : DataGrid) (i j k : Nat) : Dict × List String :=
  let base := elem.rules.foldl
    (fun acc r => update acc
      (ruleFire r [CallArg.dgArg dg, CallArg.intArg i, CallArg.intArg j, CallArg.intArg k]))
    elem.args
  let p := dg.panels i j
  let dc := p.dcs.getD k default
  let afterTags := applyTags elem.type_style warnPlot base dc.plot_types
  let final :=
    match (elem.panel_style.find? (fun kv => kv.1 = p.pprop)).map (fun kv => kv.2) with
    | none => afterTags.1
    | some table =>
      if dc.hasProp p.pprop then
        match (table.find? (fun kv => kv.1 = dc.getProp p.pprop)).map (fun kv => kv.2) with
        | none => afterTags.1
        | some ov => update afterTags.1 ov
      else afterTags.1
  (final, afterTags.2)

/-- `RowLabel.getStyles` (style_elements.py lines 454–458): gate on
`panel_j == self.args[self.idx_key]` (the reserved key `_idx`), delegating
to `PanelArgs.getStyles` when the gate passes, `{}` otherwise.  A missing
`_idx` key would be a Python `KeyError`. -/
def rowLabelGetStyles (elem : SElem) (dg : DataGrid) (i j : Nat) : Except String Dict :=
  match lookup elem.args "_idx" with
  | none => Except.error "KeyError: _idx"
  | some v =>
    if v = Val.vInt (j : Int) then Except.ok (panelArgsGetStyles elem dg i j).1
    else Except.ok []

/-- `ColLabel.getStyles` (style_elements.py lines 438–442): gate on
`panel_i == self.args[self.idx_key]`. -/
def colLabelGetStyles (elem : SElem) (dg : DataGrid) (i j : Nat) : Except String Dict :=
  match lookup elem.args "_idx" with
  | none => Except.error "KeyError: _idx"
  | some v =>
    if v = Val.vInt (i : Int) then Except.ok (panelArgsGetStyles elem dg i j).1
    else Except.ok []

end StyleElements

namespace Styles

open Gridfig

/-- A style element of `styles.py` (`StyleElement`): default args and a rule
list (no `type_style` table in this module). -/
structure SElem where
  args : Dict
  rules : List Rule

/-- `FigSE.getStyles` (styles.py lines 121–129): deep-copy the defaults,
then merge each rule's result in order, skipping empty results (`if
new_args:`).  Rules are invoked with the single argument `dg`. -/
def figSEGetStyles (elem : SElem) (dg : DataGrid) : Dict :=
  elem.rules.foldl
    (fun acc r =>
      let na := ruleFire r [CallArg.dgArg dg]
      if na.isEmpty then acc else update acc na)
    elem.args

/-- `Layout.NEED_KEYS` (styles.py line 137).  The source stores these in a
Python `set` whose iteration order is unspecified; the theorems below rely
only on membership. -/
def NEED_KEYS : List String :=
  ["top", "bottom", "left", "right", "panel_height", "panel_width", "wspace", "hspace"]

/-- `Layout.OPT_KEYS` (styles.py line 138). -/
def OPT_KEYS : List String := ["height_ratios", "width_ratios"]

/-- `Layout.updateArgs` (styles.py lines 139–153): for each new key in
order, raise `ValueError` if it is not an allowed layout key, otherwise
assign it.  No value is ever inspected. -/
def layoutUpdateArgs : Dict → Dict → Except String Dict
  | args, [] => Except.ok args
  | args, (k, v) :: rest =>
    if k ∈ NEED_KEYS ∨ k ∈ OPT_KEYS then layoutUpdateArgs (setKey args k v) rest
    else Except.error (k ++ " argument is not allowed for Layout...")

/-- `Layout.getStyles` (styles.py lines 167–171): raise `ValueError` naming
the first required key missing from the defaults, else delegate to
`FigSE.getStyles`. -/
def layoutGetStyles (elem : SElem) (dg : DataGrid) : Except String Dict :=
  match NEED_KEYS.find? (fun k => (lookup elem.args k).isNone) with
  | some k => Except.error (k ++ " must be defined in layout")
  | none => Except.ok (figSEGetStyles elem dg)

/-- `PanelSE.getStyles` (styles.py lines 188–202): like `FigSE.getStyles`
but rules are invoked with `(dg, i, j)`. -/
def panelSEGetStyles (elem : SElem) (dg : DataGrid) (i j : Nat) : Dict :=
  elem.rules.foldl
    (fun acc r =>
      let na := ruleFire r [CallArg.dgArg dg, CallArg.intArg i, CallArg.intArg j]
      if na.isEmpty then acc else update acc na)
    elem.args

/-- `PanelSE.forAllPanels` (styles.py lines 204–208): the element is the
same for all panels when it has no rules. -/
def forAllPanels (elem : SElem) : Bool := elem.rules.length == 0

/-- The optimized branch of `StyleManager.getStyleGrid` (styles.py lines
384–386): when `forAllPanels` holds, the style computed at panel (0, 0) is
stored once and shared by every panel. -/
def styleGridShared (elem : SElem) (dg : DataGrid) : Nat → Nat → Dict :=
  fun _ _ => panelSEGetStyles elem dg 0 0

/-- The unoptimized branch of `StyleManager.getStyleGrid` (styles.py lines
387–390): each panel's style is computed individually. -/
def styleGridPerPanel (elem : SElem) (dg : DataGrid) : Nat → Nat → Dict :=
  fun i j => panelSEGetStyles elem dg i j

end Styles

namespace MplBackend

/-- The layout configuration dict read by `MPL.makeFig`/`MPL._getFigsize`
(`mpl.py`): optional ratio sequences, scalar margins and spacings, and the
panel unit sizes.  `panel_width`/`panel_height` are Python ints (as in the
manager's defaults); `mpl.py` multiplies Python *lists* by them, which is
list repetition, so they are `Nat` here (a float would raise `TypeError`
in the source). -/
structure LayoutConfig where
  height_ratios : Option (List Rat)
  width_ratios : Option (List Rat)
  top : Rat
  bottom : Rat
  left : Rat
  right : Rat
  hspace : Rat
  wspace : Rat
  panel_width : Nat
  panel_height : Nat

/-- Python `l * n` for a list `l` and int `n`: `n`-fold repetition. -/
def listRepeat (l : List Rat) (n : Nat) : List Rat :=
  (List.replicate n l).flatten

/-- `MPL._getFigsize` (mpl.py lines 94–127), faithfully including the
Python semantics of each `*`: `wrs * panel_width`, `xb * panel_width` are
list repetitions (`wrs`, `xb` are lists), while `ws * panel_width` is
numeric (`ws = lo['wspace']` is a scalar).  Returns (figwidth, figheight)
in inches. -/
def getFigsize (lo : LayoutConfig) (nrows ncols : Nat) : Rat × Rat :=
  let hrs := lo.height_ratios.getD (List.replicate nrows 1)
  let wrs := lo.width_ratios.getD (List.replicate ncols 1)
  let yb := [lo.top, lo.bottom]
  let xb := [lo.left, lo.right]
  let hs := lo.hspace
  let ws := lo.wspace
  let width_ratios := listRepeat wrs lo.panel_width
  let height_ratios := listRepeat hrs lo.panel_height
  let xborder := listRepeat xb lo.panel_width
  let yborder := listRepeat yb lo.panel_height
  let wspace := ws * (lo.panel_width : Rat)
  let hspace := hs * (lo.panel_height : Rat)
  let total_widths := width_ratios.sum
  let total_wspace := wspace
  let wborder_space := xborder.sum
  let total_heights := height_ratios.sum
  let total_hspace := hspace
  let hborder_space := yborder.sum
  (total_widths + total_wspace + wborder_space,
   total_heights + total_hspace + hborder_space)

/-- The normalized rectangle `axdim = [left, bottom, width, height]` that
`MPL.makeFig` (mpl.py lines 17–70) computes for cell `(i, j)`.  Here
`hs = [lo['hspace']] * nrows` and `ws = [lo['wspace']] * ncols` are lists,
so `ws * panel_width` is again list repetition; `height_ratios[i]` and
`width_ratios[j]` index into the repeated ratio lists; figsize comes from
`_getFigsize`.  Out-of-range indexing (impossible for the in-range cells
makeFig iterates) is modelled by `getD _ 0`. -/
def makeFigAxdim (lo : LayoutConfig) (nrows ncols i j : Nat) : Rat × Rat × Rat × Rat :=
  let figsize := getFigsize lo nrows ncols
  let figwidth := figsize.1
  let figheight := figsize.2
  let hrs := lo.height_ratios.getD (List.replicate nrows 1)
  let wrs := lo.width_ratios.getD (List.replicate ncols 1)
  let yb := [lo.top, lo.bottom]
  let xb := [lo.left, lo.right]
  let hs := List.replicate nrows lo.hspace
  let ws := List.replicate ncols lo.wspace
  let width_ratios := listRepeat wrs lo.panel_width
  let height_ratios := listRepeat hrs lo.panel_height
  let xborder := listRepeat xb lo.panel_width
  let yborder := listRepeat yb lo.panel_height
  let wspace := listRepeat ws lo.panel_width
  let hspace := listRepeat hs lo.panel_height
  let height := height_ratios.getD i 0
  let width := width_ratios.getD j 0
  let total_hspace := (hspace.take i).sum
  let total_heights := (height_ratios.take (i + 1)).sum
  let total_widths := (width_ratios.take j).sum
  let total_wspace := (wspace.take j).sum
  let bot := figheight - yborder.getD 0 0 - total_hspace - total_heights
  let eleft := xborder.getD 0 0 + total_widths + total_wspace
  (eleft / figwidth, bot / figheight, width / figwidth, height / figheight)

end MplBackend

namespace PyHeap

open Gridfig (DataGrid)

/-- A heap address. -/
abbrev Addr := Nat

/-- An inner (nested) Python dict with immutable values, e.g. the dict
value of a style argument. -/
abbrev Cell := List (String × Int)

/-- A heap: allocation appends, addresses are indices.  Mutating an inner
dict in place is `setCell`. -/
abbrev Store := List Cell

/-- A value of a top-level style dict: either an immutable int or a
reference to a shared inner dict. -/
inductive HVal where
  | int : Int → HVal
  | ref : Addr → HVal
deriving DecidableEq

/-- A top-level Python dict whose values may reference heap cells. -/
abbrev HDict := List (String × HVal)

/-- Python dict assignment (as in the value model). -/
def hSetKey (d : HDict) (k : String) (v : HVal) : HDict :=
  if d.any (fun kv => kv.1 = k) then
    d.map (fun kv => if kv.1 = k then (k, v) else kv)
  else
    d ++ [(k, v)]

/-- Python `d.update(e)`: pair-by-pair assignment — reference values are
copied as references (shallow), exactly like `dict.update`. -/
def hUpdate (d e : HDict) : HDict :=
  e.foldl (fun acc kv => hSetKey acc kv.1 kv.2) d

/-- `copy.deepcopy` of a top-level dict: int values are copied, and each
referenced inner dict is duplicated into a freshly allocated cell
(allocation in key order).  Python's deepcopy memo only matters for dicts
whose values are internally aliased, which this model does not need. -/
def deepcopyH : Store → HDict → Store × HDict
  | s, [] => (s, [])
  | s, (k, HVal.int n) :: rest =>
      let r := deepcopyH s rest
      (r.1, (k, HVal.int n) :: r.2)
  | s, (k, HVal.ref a) :: rest =>
      let r := deepcopyH (s ++ [s.getD a []]) rest
      (r.1, (k, HVal.ref s.length) :: r.2)

/-- A `styles.py` `StyleRule` whose conditions read the data grid (the
arity-1 form `rule(dg)` used by `FigSE.getStyles`). -/
structure HRule where
  condition : List (DataGrid → Bool)
  args : HDict

/-- The result of `rule(dg)`: the rule's own stored `args` object (NOT a
copy) when every condition holds, else a new empty dict. -/
def ruleFireH (r : HRule) (dg : DataGrid) : HDict :=
  if r.condition.all (fun c => c dg) then r.args else []

/-- A `styles.py` `FigSE` element in the heap model. -/
structure HElem where
  args : HDict
  rules : List HRule

/-- The rule loop of `FigSE.getStyles`: `for rule in self.rules: new_args =
rule(dg); if new_args: args.update(new_args)`. -/
def applyRulesH (dg : DataGrid) : HDict → List HRule → HDict
  | acc, [] => acc
  | acc, ru :: rest =>
      let na := ruleFireH ru dg
      applyRulesH dg (if na.isEmpty then acc else hUpdate acc na) rest

/-- `FigSE.getStyles` (styles.py lines 121–129) in store-passing form:
deep-copy the defaults (allocating fresh cells), then merge each fired
rule's args shallowly.  Returns the possibly-extended store and the
returned dict. -/
def figSEGetStylesH (elem : HElem) (dg : DataGrid) (s : Store) : Store × HDict :=
  let r := deepcopyH s elem.args
  (r.1, applyRulesH dg r.2 elem.rules)

/-- The observable content of a value under a store: a reference resolved
to the inner dict it denotes. -/
def resolveVal (s : Store) : HVal → Sum Int Cell
  | HVal.int n => Sum.inl n
  | HVal.ref a => Sum.inr (s.getD a [])

/-- The observable content of a dict under a store. -/
def resolve (s : Store) (d : HDict) : List (String × Sum Int Cell) :=
  d.map (fun kv => (kv.1, resolveVal s kv.2))

/-- In-place mutation of the inner dict at address `a` — what a caller does
when it deep-mutates a value reached through a returned style mapping. -/
def setCell (s : Store) (a : Addr) (c : Cell) : Store := s.set a c

/-- Every reference occurring in `d` points below `n` (into the existing
store). -/
def wfDict (n : Nat) (d : HDict) : Prop :=
  ∀ kv ∈ d, match kv.2 with
    | HVal.ref a => a < n
    | HVal.int _ => True

/-- The element's stored configuration only references existing cells. -/
def wfElem (n : Nat) (elem : HElem) : Prop :=
  wfDict n elem.args ∧ ∀ ru ∈ elem.rules, wfDict n ru.args

/-- Resolved-content analogue of `hSetKey`, used to state how `getStyles`
results depend only on resolved content. -/
def rSetKey (d : List (String × Sum Int Cell)) (k : String) (v : Sum Int Cell) :
    List (String × Sum Int Cell) :=
  if d.any (fun kv => kv.1 = k) then
    d.map (fun kv => if kv.1 = k then (k, v) else kv)
  else
    d ++ [(k, v)]

/-- Resolved-content analogue of `hUpdate`. -/
def rUpdate (d e : List (String × Sum Int Cell)) : List (String × Sum Int Cell) :=
  e.foldl (fun acc kv => rSetKey acc kv.1 kv.2) d

end PyHeap

namespace Inputs

open Gridfig

/-- A data container carrying the plot-type tag `"t"`. -/
def dcT : DataContainer := { props := [], plot_types := ["t"] }

/-- A panel holding `dcT`. -/
def panelT : Panel := { pprop := "p", axis_types := [], dcs := [dcT] }

/-- A 1×1 data grid whose figure-type tag list is `["t"]`. -/
def dgT : DataGrid :=
  { nrows := 1, ncols := 1, fig_type := ["t"], panels := fun _ _ => panelT }

/-- A `FigArgs` element with default `{a: 1}`, tag override `{a: 2}` for tag
`"t"`, and an always-firing rule contributing `{a: 3}`. -/
def figElemA : StyleElements.SElem :=
  { args := [("a", Val.vInt 1)],
    rules := [{ condition := [fun _ => true], args := [("a", Val.vInt 3)] }],
    type_style := [("t", [("a", Val.vInt 2)])] }

/-- A `VizArgs` element with the same three tiers as `figElemA`. -/
def vizElemA : StyleElements.VizElem :=
  { args := [("a", Val.vInt 1)],
    rules := [{ condition := [fun _ => true], args := [("a", Val.vInt 3)] }],
    type_style := [("t", [("a", Val.vInt 2)])],
    panel_style := [] }

/-- 1×1 layout, ratio [1], zero spacing and margins, 2-inch panels. -/
def loSquare2 : MplBackend.LayoutConfig :=
  { height_ratios := some [1], width_ratios := some [1],
    top := 0, bottom := 0, left := 0, right := 0,
    hspace := 0, wspace := 0, panel_width := 2, panel_height := 2 }

/-- 1×1 layout, ratio [1], zero spacing and margins, 1-inch panels. -/
def loSquare1 : MplBackend.LayoutConfig :=
  { height_ratios := some [1], width_ratios := some [1],
    top := 0, bottom := 0, left := 0, right := 0,
    hspace := 0, wspace := 0, panel_width := 1, panel_height := 1 }

/-- 1×3 layout, width ratios [1,1,1], wspace 1, zero margins, 1-inch
panels: a valid configuration with three columns and hence two horizontal
gaps. -/
def loThreeCols : MplBackend.LayoutConfig :=
  { height_ratios := some [1], width_ratios := some [1, 1, 1],
    top := 0, bottom := 0, left := 0, right := 0,
    hspace := 0, wspace := 1, panel_width := 1, panel_height := 1 }

/-- A layout configuration holding a negative width ratio, reachable through
`Layout.updateArgs` without any error. -/
def loNegRatio : MplBackend.LayoutConfig :=
  { height_ratios := some [1], width_ratios := some [-1, -1],
    top := 0, bottom := 0, left := 0, right := 0,
    hspace := 0, wspace := 0, panel_width := 1, panel_height := 1 }

/-- A `styles.py` `Layout` element whose defaults set every required key
except `"top"`. -/
def layoutElemNoTop : Styles.SElem :=
  { args := [("bottom", Val.vNum 0), ("left", Val.vNum 0), ("right", Val.vNum 0),
             ("panel_height", Val.vInt 3), ("panel_width", Val.vInt 3),
             ("wspace", Val.vNum 0), ("hspace", Val.vNum 0)],
    rules := [] }

/-- A `FigArgs`/`PanelArgs` element knowing only the tag `"s"`. -/
def elemTagS : StyleElements.SElem :=
  { args := [("a", Val.vInt 1)], rules := [],
    type_style := [("s", [("b", Val.vInt 2)])] }

/-- A data grid carrying the recognized tag `"s"` followed by the
unrecognized tag `"u"`, both as figure types and as axis types. -/
def dgSU : DataGrid :=
  { nrows := 1, ncols := 1, fig_type := ["s", "u"],
    panels := fun _ _ => { pprop := "p", axis_types := ["s", "u"], dcs := [] } }

/-- A row/col label element with its reserved index key at the default 1
and the default position. -/
def labelElem : StyleElements.SElem :=
  { args := [("_idx", Val.vInt 1), ("pos", Val.vPair (1/20) (1/20)), ("text", Val.vStr "")],
    rules := [], type_style := [] }

/-- A rule with one always-false condition. -/
def ruleFalse : Rule :=
  { condition := [fun _ => false], args := [("a", Val.vInt 1)] }

/-- A rule with one always-true condition. -/
def ruleTrue : Rule :=
  { condition := [fun _ => true], args := [("a", Val.vInt 1)] }

/-- A `styles.py` panel element with no rules. -/
def panelElemNoRules : Styles.SElem :=
  { args := [("c", Val.vInt 7)], rules := [] }

/-- A one-cell store: address 0 holds the inner dict `{x: 1}`. -/
def storeOne : PyHeap.Store := [[("x", 1)]]

/-- A heap-model `FigSE` element whose always-firing rule stores the value
`{a: <reference to cell 0>}` — a mutable dict owned by the rule. -/
def elemAliasRule : PyHeap.HElem :=
  { args := [("b", PyHeap.HVal.int 1)],
    rules := [{ condition := [fun _ => true], args := [("a", PyHeap.HVal.ref 0)] }] }

/-- A heap-model `FigSE` element whose default maps `c` to the inner dict
at cell 0 (deep-copied on every query). -/
def elemRefDefault : PyHeap.HElem :=
  { args := [("c", PyHeap.HVal.ref 0)], rules := [] }

/-- The store after querying `elemRefDefault` once on `storeOne` and then
mutating the FRESH cell (address 1) that the returned mapping references —
a caller mutation confined to the returned copy. -/
def storeMutFresh : PyHeap.Store :=
  PyHeap.setCell (PyHeap.figSEGetStylesH elemRefDefault dgSU storeOne).1 1 [("x", 5)]

end Inputs

/-! ## General lemmas about the dict model -/

namespace Gridfig

theorem update_nil (d : Dict) : update d [] = d := rfl

theorem length_le_setKey (d : Dict) (k : String) (v : Val) :
    d.length ≤ (setKey d k v).length := by
  unfold setKey
  by_cases h : d.any (fun kv => kv.1 = k)
  · simp [h]
  · simp [h]

theorem length_le_update (d e : Dict) : d.length ≤ (update d e).length := by
  induction e generalizing d with
  | nil => simp [update]
  | cons kv rest ih =>
      have h1 := length_le_setKey d kv.1 kv.2
      have h2 := ih (setKey d kv.1 kv.2)
      calc d.length ≤ (setKey d kv.1 kv.2).length := h1
        _ ≤ (update (setKey d kv.1 kv.2) rest).length := h2
        _ = (update d (kv :: rest)).length := rfl

theorem update_ne_nil (d e : Dict) (h : d ≠ []) : update d e ≠ [] := by
  intro hcon
  have hlen := length_le_update d e
  rw [hcon] at hlen
  simp at hlen
  exact h hlen

end Gridfig

namespace StyleElements

open Gridfig

theorem styleElementGetStyles_ne_nil (elem : SElem) (dg : DataGrid)
    (h : elem.args ≠ []) : styleElementGetStyles elem dg ≠ [] := by
  unfold styleElementGetStyles
  generalize elem.args = d at h
  induction elem.rules generalizing d with
  | nil => simpa using h
  | cons r rest ih =>
      simp only [List.foldl_cons]
      exact ih _ (update_ne_nil _ _ h)

theorem applyTags_ne_nil (ts : List (String × Dict)) (warn : String → String)
    (acc : Dict) (l : List String) (h : acc ≠ []) :
    (applyTags ts warn acc l).1 ≠ [] := by
  induction l generalizing acc with
  | nil => simpa [applyTags] using h
  | cons t rest ih =>
      unfold applyTags
      cases hf : (ts.find? (fun kv => kv.1 = t)).map (fun kv => kv.2) with
      | none => simpa using ih acc h
      | some ov => simpa using ih (update acc ov) (update_ne_nil _ _ h)

theorem applyTags_cons (ts : List (String × Dict)) (warn : String → String)
    (acc : Dict) (t : String) (l : List String) :
    applyTags ts warn acc (t :: l) =
      match (ts.find? (fun kv => kv.1 = t)).map (fun kv => kv.2) with
      | some ov => applyTags ts warn (update acc ov) l
      | none => ((applyTags ts warn acc l).1, warn t :: (applyTags ts warn acc l).2) := rfl

theorem applyTags_cons_none (ts : List (String × Dict)) (warn : String → String)
    (t : String) (ht : (ts.find? (fun kv => kv.1 = t)).map (fun kv => kv.2) = none)
    (acc : Dict) (l : List String) :
    applyTags ts warn acc (t :: l) =
      ((applyTags ts warn acc l).1, warn t :: (applyTags ts warn acc l).2) := by
  rw [applyTags_cons, ht]

theorem applyTags_cons_some (ts : List (String × Dict)) (warn : String → String)
    (t : String) (ov : Dict)
    (ht : (ts.find? (fun kv => kv.1 = t)).map (fun kv => kv.2) = some ov)
    (acc : Dict) (l : List String) :
    applyTags ts warn acc (t :: l) = applyTags ts warn (update acc ov) l := by
  rw [applyTags_cons, ht]

theorem applyTags_skip (ts : List (String × Dict)) (warn : String → String)
    (t : String) (ht : ts.find? (fun kv => kv.1 = t) = none) :
    ∀ (l1 l2 : List String) (acc : Dict),
      (applyTags ts warn acc (l1 ++ t :: l2)).1 = (applyTags ts warn acc (l1 ++ l2)).1 ∧
      warn t ∈ (applyTags ts warn acc (l1 ++ t :: l2)).2 := by
  have ht2 : (ts.find? (fun kv => kv.1 = t)).map (fun kv => kv.2) = none := by
    rw [ht]
    rfl
  intro l1
  induction l1 with
  | nil =>
      intro l2 acc
      simp only [List.nil_append]
      rw [applyTags_cons_none ts warn t ht2]
      exact ⟨rfl, List.mem_cons_self _ _⟩
  | cons t1 rest ih =>
      intro l2 acc
      simp only [List.cons_append]
      cases hf : (ts.find? (fun kv => kv.1 = t1)).map (fun kv => kv.2) with
      | some ov =>
          rw [applyTags_cons_some ts warn t1 ov hf, applyTags_cons_some ts warn t1 ov hf]
          exact ih l2 (update acc ov)
      | none =>
          rw [applyTags_cons_none ts warn t1 hf, applyTags_cons_none ts warn t1 hf]
          exact ⟨(ih l2 acc).1, List.mem_cons_of_mem _ (ih l2 acc).2⟩

end StyleElements

namespace PyHeap

open Gridfig (DataGrid)

theorem deepcopyH_extends (d : HDict) : ∀ s : Store, ∃ t, (deepcopyH s d).1 = s ++ t := by
  induction d with
  | nil => intro s; exact ⟨[], by simp [deepcopyH]⟩
  | cons kv rest ih =>
      intro s
      obtain ⟨k, v⟩ := kv
      cases v with
      | int n =>
          obtain ⟨t, ht⟩ := ih s
          exact ⟨t, by simpa [deepcopyH] using ht⟩
      | ref a =>
          obtain ⟨t, ht⟩ := ih (s ++ [s.getD a []])
          refine ⟨s.getD a [] :: t, ?_⟩
          show (deepcopyH (s ++ [s.getD a []]) rest).1 = s ++ s.getD a [] :: t
          rw [ht, List.append_assoc]
          rfl

theorem wfDict_mono {n m : Nat} (hnm : n ≤ m) {d : HDict} (hd : wfDict n d) :
    wfDict m d := by
  intro kv hkv
  have h2 := hd kv hkv
  revert h2
  cases kv.2 with
  | int x => intro h2; exact h2
  | ref a => intro h2; exact lt_of_lt_of_le h2 hnm

theorem wfDict_tail {n : Nat} {kv : String × HVal} {rest : HDict}
    (h : wfDict n (kv :: rest)) : wfDict n rest :=
  fun kv2 h2 => h kv2 (List.mem_cons_of_mem _ h2)

theorem resolve_agree (s sB : Store)
    (hagree : ∀ a, a < s.length → sB.getD a [] = s.getD a []) :
    ∀ d : HDict, wfDict s.length d → resolve sB d = resolve s d := by
  intro d
  induction d with
  | nil => intro _; rfl
  | cons kv rest ih =>
      intro hwf
      have hkv := hwf kv (List.mem_cons_self _ _)
      have htail := ih (wfDict_tail hwf)
      unfold resolve at htail ⊢
      simp only [List.map_cons]
      rw [htail]
      have hhead : resolveVal sB kv.2 = resolveVal s kv.2 := by
        revert hkv
        cases kv.2 with
        | int x => intro _; rfl
        | ref a =>
            intro hkv
            simp only [resolveVal]
            rw [hagree a hkv]
      rw [hhead]

theorem deepcopyH_resolve :
    ∀ (d : HDict) (s : Store), wfDict s.length d →
      resolve (deepcopyH s d).1 (deepcopyH s d).2 = resolve s d := by
  intro d
  induction d with
  | nil => intro s _; rfl
  | cons kv rest ih =>
      intro s hwf
      obtain ⟨k, v⟩ := kv
      have hrest : wfDict s.length rest := wfDict_tail hwf
      cases v with
      | int n =>
          simp only [deepcopyH, resolve, List.map_cons]
          have htail := ih s hrest
          unfold resolve at htail
          rw [htail]
          rfl
      | ref a =>
          have hlt : a < s.length := hwf (k, HVal.ref a) (List.mem_cons_self _ _)
          obtain ⟨t, ht⟩ := deepcopyH_extends rest (s ++ [s.getD a []])
          have hhead :
              resolveVal (deepcopyH (s ++ [s.getD a []]) rest).1 (HVal.ref s.length) =
              resolveVal s (HVal.ref a) := by
            simp only [resolveVal]
            rw [ht, List.append_assoc,
              List.getD_append_right s _ _ _ (le_refl s.length)]
            simp
          have htail :
              resolve (deepcopyH (s ++ [s.getD a []]) rest).1
                  (deepcopyH (s ++ [s.getD a []]) rest).2 =
              resolve s rest := by
            have h1 := ih (s ++ [s.getD a []]) (wfDict_mono (by simp) hrest)
            have h2 := resolve_agree s (s ++ [s.getD a []])
              (fun a2 ha2 => List.getD_append s _ _ _ ha2) rest hrest
            rw [h1, h2]
          simp only [deepcopyH, resolve, List.map_cons]
          unfold resolve at htail
          rw [hhead, htail]

theorem resolve_any_key (s : Store) (k : String) :
    ∀ d : HDict, (resolve s d).any (fun kv => kv.1 = k) = d.any (fun kv => kv.1 = k) := by
  intro d
  induction d with
  | nil => rfl
  | cons kv rest ih =>
      unfold resolve at ih ⊢
      simp only [List.map_cons, List.any_cons]
      rw [ih]

theorem resolve_map_overwrite (s : Store) (k : String) (v : HVal) :
    ∀ d : HDict,
      resolve s (d.map (fun kv => if kv.1 = k then (k, v) else kv)) =
      (resolve s d).map (fun kv => if kv.1 = k then (k, resolveVal s v) else kv) := by
  intro d
  induction d with
  | nil => rfl
  | cons kv rest ih =>
      unfold resolve at ih ⊢
      simp only [List.map_cons]
      rw [ih]
      by_cases hk : kv.1 = k
      · simp [hk]
      · simp [hk]

theorem resolve_hSetKey (s : Store) (d : HDict) (k : String) (v : HVal) :
    resolve s (hSetKey d k v) = rSetKey (resolve s d) k (resolveVal s v) := by
  unfold hSetKey rSetKey
  rw [resolve_any_key]
  by_cases h : d.any (fun kv => kv.1 = k)
  · rw [if_pos h, if_pos h]
    exact resolve_map_overwrite s k v d
  · rw [if_neg h, if_neg h]
    unfold resolve
    rw [List.map_append]
    rfl

theorem resolve_hUpdate (s : Store) (d e : HDict) :
    resolve s (hUpdate d e) = rUpdate (resolve s d) (resolve s e) := by
  induction e generalizing d with
  | nil => rfl
  | cons kv rest ih =>
      have step : hUpdate d (kv :: rest) = hUpdate (hSetKey d kv.1 kv.2) rest := rfl
      have stepR : rUpdate (resolve s d) (resolve s (kv :: rest)) =
          rUpdate (rSetKey (resolve s d) kv.1 (resolveVal s kv.2)) (resolve s rest) := rfl
      rw [step, stepR, ih, resolve_hSetKey]

theorem ruleFireH_nonempty_eq {ru : HRule} {dg : DataGrid}
    (h : (ruleFireH ru dg).isEmpty = false) : ruleFireH ru dg = ru.args := by
  unfold ruleFireH at h ⊢
  by_cases hc : ru.condition.all (fun c => c dg)
  · rw [if_pos hc]
  · rw [if_neg hc] at h
    simp at h

theorem applyRulesH_cons (dg : DataGrid) (acc : HDict) (ru : HRule) (rest : List HRule) :
    applyRulesH dg acc (ru :: rest) =
      applyRulesH dg
        (if (ruleFireH ru dg).isEmpty then acc else hUpdate acc (ruleFireH ru dg))
        rest := rfl

theorem applyRulesH_resolve_congr (dg : DataGrid) :
    ∀ (rules : List HRule) (sA sB : Store) (base1 base2 : HDict),
      resolve sA base1 = resolve sB base2 →
      (∀ ru ∈ rules, resolve sA ru.args = resolve sB ru.args) →
      resolve sA (applyRulesH dg base1 rules) = resolve sB (applyRulesH dg base2 rules) := by
  intro rules
  induction rules with
  | nil => intro sA sB b1 b2 hb _; exact hb
  | cons ru rest ih =>
      intro sA sB b1 b2 hb hr
      have hrest : ∀ ru2 ∈ rest, resolve sA ru2.args = resolve sB ru2.args :=
        fun ru2 h2 => hr ru2 (List.mem_cons_of_mem _ h2)
      have hru : resolve sA ru.args = resolve sB ru.args := hr ru (List.mem_cons_self _ _)
      rw [applyRulesH_cons, applyRulesH_cons]
      by_cases hemp : (ruleFireH ru dg).isEmpty = true
      · rw [if_pos hemp, if_pos hemp]
        exact ih sA sB b1 b2 hb hrest
      · rw [if_neg hemp, if_neg hemp]
        refine ih sA sB _ _ ?_ hrest
        rw [resolve_hUpdate, resolve_hUpdate, hb,
          ruleFireH_nonempty_eq (Bool.not_eq_true _ ▸ hemp), hru]

end PyHeap

/-! ## Claim theorems -/

open Gridfig StyleElements Styles MplBackend Inputs

/-- C1: the claim says rules have the highest precedence, so with defaults
`{a:1}`, tag override `{a:2}` for tag `"t"`, an always-firing rule `{a:3}`
and a context carrying tag `"t"`, `getStyles` should resolve `a = 3`.  The
code applies the `type_style` tag overrides AFTER the rules in both
`FigArgs.getStyles` and `VizArgs.getStyles`, so it resolves `a = 2` —
contradicting the class docstring ("Arguments from `rules` overwrite
`type_style`").  This theorem evaluates the embedded code at exactly that
input. -/
theorem figArgs_tag_overrides_rule :
    (figArgsGetStyles figElemA dgT).1 = [("a", Val.vInt 2)] ∧
    (figArgsGetStyles figElemA dgT).1 ≠ [("a", Val.vInt 3)] ∧
    (vizArgsGetStyles vizElemA dgT 0 0 0).1 = [("a", Val.vInt 2)] := by
  refine ⟨by decide, by decide, by decide⟩

/-- C2: the claim (and the spec invariant) requires total figure width
`Σ(width_ratios)·panel_width + (cols−1 gaps)·panel_width +
(left+right)·panel_width`.  In `_getFigsize` the horizontal spacing
`ws = lo['wspace']` is a scalar, so exactly ONE gap's width is budgeted no
matter how many columns there are: for 3 columns with unit ratios, unit
wspace, zero margins and unit panels, the code computes figwidth 4 where
the claimed invariant requires 3·1 + 2·1·1 + 0 = 5. -/
theorem getFigsize_single_gap_diverges :
    (getFigsize loThreeCols 1 3).1 = 4 ∧
    (getFigsize loThreeCols 1 3).1 ≠
      ([(1 : Rat), 1, 1].sum * 1 + ((3 - 1) * 1) * 1 + ((0 : Rat) + 0) * 1) := by
  constructor
  · norm_num [getFigsize, listRepeat, loThreeCols, List.replicate]
  · norm_num [getFigsize, listRepeat, loThreeCols, List.replicate]

/-- C3: the claim requires a 1×1 grid with zero spacing/margins and ratio
[1] to yield the normalized rectangle (0, 0, 1, 1) for ANY positive panel
size.  `makeFig` takes each cell's extent from the raw ratio list
(`height_ratios[i]`), never scaled by the panel size, while the figure size
IS scaled, so with 2-inch panels the cell rectangle is
(0, 1/2, 1/2, 1/2).  Only 1-inch panels give (0, 0, 1, 1). -/
theorem makeFig_unit_rectangle_fails :
    makeFigAxdim loSquare2 1 1 0 0 = (0, 1/2, 1/2, 1/2) ∧
    makeFigAxdim loSquare2 1 1 0 0 ≠ (0, 0, 1, 1) ∧
    makeFigAxdim loSquare1 1 1 0 0 = (0, 0, 1, 1) := by
  refine ⟨?_, ?_, ?_⟩
  · norm_num [makeFigAxdim, getFigsize, listRepeat, loSquare2, List.replicate]
  · norm_num [makeFigAxdim, getFigsize, listRepeat, loSquare2, List.replicate]
  · norm_num [makeFigAxdim, getFigsize, listRepeat, loSquare1, List.replicate]


/-- C5: on a `Layout` element with at least one required key never set via
a default, `getStyles` raises (here: returns an error, matching the
`ValueError` the source raises, which the spec calls `MissingConfigError`)
before returning any style mapping, with a message naming an absent
required key; when exactly one required key is absent, the message names
exactly that key. -/
theorem layout_getStyles_missing_required_key (elem : Styles.SElem) (dg : DataGrid)
    (h : ∃ k, k ∈ NEED_KEYS ∧ lookup elem.args k = none) :
    (∃ k, k ∈ NEED_KEYS ∧ lookup elem.args k = none ∧
      layoutGetStyles elem dg = Except.error (k ++ " must be defined in layout")) ∧
    (∀ d, layoutGetStyles elem dg ≠ Except.ok d) ∧
    (∀ k0, k0 ∈ NEED_KEYS → lookup elem.args k0 = none →
      (∀ k1, k1 ∈ NEED_KEYS → lookup elem.args k1 = none → k1 = k0) →
      layoutGetStyles elem dg = Except.error (k0 ++ " must be defined in layout")) := by
  cases hf : NEED_KEYS.find? (fun k => (lookup elem.args k).isNone) with
  | none =>
      exfalso
      obtain ⟨k, hk, hnone⟩ := h
      have := List.find?_eq_none.mp hf k hk
      simp [hnone] at this
  | some k =>
      have hkmem : k ∈ NEED_KEYS := List.mem_of_find?_eq_some hf
      have hknone : lookup elem.args k = none := by
        have h2 := List.find?_some hf
        simpa using h2
      have heq : layoutGetStyles elem dg = Except.error (k ++ " must be defined in layout") := by
        unfold layoutGetStyles
        rw [hf]
      refine ⟨⟨k, hkmem, hknone, heq⟩, ?_, ?_⟩
      · intro d hd
        rw [heq] at hd
        exact Except.noConfusion hd
      · intro k0 _ _ huniq
        rw [huniq k hkmem hknone] at heq
        exact heq

/-- Witness for C5: with every required key but `"top"` defaulted,
`getStyles` fails naming exactly `"top"`. -/
theorem layout_getStyles_missing_required_key_witness :
    layoutGetStyles layoutElemNoTop dgT = Except.error "top must be defined in layout" := by
  have h := layout_getStyles_missing_required_key layoutElemNoTop dgT
    ⟨"top", by decide, rfl⟩
  refine h.2.2 "top" (by decide) rfl ?_
  intro k1 h1 h2
  fin_cases h1
  · rfl
  all_goals (exfalso; revert h2; decide)

/-- C6: the claim says any call introducing a non-positive ratio, negative
margin/spacing, or mismatched ratio length raises a descriptive
`ConfigError` immediately, before any geometry is computed.  The code never
inspects values: `Layout.updateArgs` accepts a negative width-ratio
sequence (of mismatched length 2 for a 1-column grid), a negative margin
and a negative spacing without error, and `_getFigsize` then computes
geometry (a negative figure width) from such a configuration. -/
theorem layout_updateArgs_accepts_invalid_values :
    layoutUpdateArgs []
        [("width_ratios", Val.vList [-1, -1]), ("left", Val.vNum (-1/2)),
         ("wspace", Val.vNum (-3))] =
      Except.ok
        [("width_ratios", Val.vList [-1, -1]), ("left", Val.vNum (-1/2)),
         ("wspace", Val.vNum (-3))] ∧
    (getFigsize loNegRatio 1 2).1 = -2 := by
  constructor
  · rfl
  · norm_num [getFigsize, listRepeat, loNegRatio, List.replicate]

/-- C6 (amended): `Layout.updateArgs` validates only key NAMES — a key
outside the allowed set raises `ValueError` immediately, while any call
whose keys are all allowed succeeds and stores the values unexamined
(non-positive ratios, negative margins/spacings and mismatched lengths
included); no value validation precedes geometry computation. -/
theorem layout_updateArgs_checks_key_names_only :
    (∀ args new_args, (∀ kv ∈ new_args, kv.1 ∈ NEED_KEYS ∨ kv.1 ∈ OPT_KEYS) →
      layoutUpdateArgs args new_args = Except.ok (update args new_args)) ∧
    (∀ (args : Dict) (k : String) (v : Val) rest,
      k ∉ NEED_KEYS → k ∉ OPT_KEYS →
      layoutUpdateArgs args ((k, v) :: rest) =
        Except.error (k ++ " argument is not allowed for Layout...")) := by
  constructor
  · intro args new_args h
    induction new_args generalizing args with
    | nil => rfl
    | cons kv rest ih =>
        obtain ⟨k, v⟩ := kv
        have hk : k ∈ NEED_KEYS ∨ k ∈ OPT_KEYS := h (k, v) (List.mem_cons_self _ _)
        have hrest : ∀ kv2 ∈ rest, kv2.1 ∈ NEED_KEYS ∨ kv2.1 ∈ OPT_KEYS :=
          fun kv2 h2 => h kv2 (List.mem_cons_of_mem _ h2)
        calc layoutUpdateArgs args ((k, v) :: rest)
            = layoutUpdateArgs (setKey args k v) rest := by
              show (if k ∈ NEED_KEYS ∨ k ∈ OPT_KEYS then
                      layoutUpdateArgs (setKey args k v) rest
                    else Except.error (k ++ " argument is not allowed for Layout...")) =
                layoutUpdateArgs (setKey args k v) rest
              exact if_pos hk
          _ = Except.ok (update (setKey args k v) rest) := ih _ hrest
          _ = Except.ok (update args ((k, v) :: rest)) := rfl
  · intro args k v rest hk1 hk2
    unfold layoutUpdateArgs
    simp [hk1, hk2]

/-- Witness for the amended C6: a value-less key check accepts an allowed
key and rejects a disallowed one. -/
theorem layout_updateArgs_checks_key_names_only_witness :
    layoutUpdateArgs [] [("top", Val.vNum 1)] = Except.ok [("top", Val.vNum 1)] ∧
    layoutUpdateArgs [] [("zzz", Val.vNum 1)] =
      Except.error "zzz argument is not allowed for Layout..." := by
  constructor
  · exact layout_updateArgs_checks_key_names_only.1 [] [("top", Val.vNum 1)]
      (by intro kv hkv; simp at hkv; subst hkv; left; decide)
  · exact layout_updateArgs_checks_key_names_only.2 [] "zzz" (Val.vNum 1) []
      (by decide) (by decide)

/-- C7: when a figure- or panel-level `getStyles` query's context carries a
classification tag with no entry in the element's `type_style` table,
resolution emits the warning for that tag, skips it (the resolved styles
equal those obtained with the tag simply dropped from the tag list, so all
other tiers — defaults, rules, recognized tags — still apply), and never
raises (`figArgsGetStyles`/`panelArgsGetStyles` are total and always return
a mapping). -/
theorem unrecognized_tag_warns_and_continues
    (elem : StyleElements.SElem) (dg : DataGrid) (i j : Nat) (t : String)
    (ts1 ts2 : List String)
    (ht : elem.type_style.find? (fun kv => kv.1 = t) = none) :
    (dg.fig_type = ts1 ++ t :: ts2 →
      (figArgsGetStyles elem dg).1 =
        (applyTags elem.type_style warnFig (styleElementGetStyles elem dg) (ts1 ++ ts2)).1 ∧
      warnFig t ∈ (figArgsGetStyles elem dg).2) ∧
    ((dg.panels i j).axis_types = ts1 ++ t :: ts2 →
      (panelArgsGetStyles elem dg i j).1 =
        (applyTags elem.type_style warnAxis (styleElementGetStyles elem dg) (ts1 ++ ts2)).1 ∧
      warnAxis t ∈ (panelArgsGetStyles elem dg i j).2) := by
  constructor
  · intro hfig
    have h := applyTags_skip elem.type_style warnFig t ht ts1 ts2 (styleElementGetStyles elem dg)
    unfold figArgsGetStyles
    rw [hfig]
    exact h
  · intro hax
    have h := applyTags_skip elem.type_style warnAxis t ht ts1 ts2 (styleElementGetStyles elem dg)
    unfold panelArgsGetStyles
    rw [hax]
    exact h

/-- Witness for C7: an element knowing only tag `"s"`, queried with tags
`["s", "u"]`, warns about `"u"` and resolves as if the tags were just
`["s"]`, at both figure and panel level. -/
theorem unrecognized_tag_warns_and_continues_witness :
    ((figArgsGetStyles elemTagS dgSU).1 =
        (applyTags elemTagS.type_style warnFig
          (styleElementGetStyles elemTagS dgSU) (["s"] ++ [])).1 ∧
      warnFig "u" ∈ (figArgsGetStyles elemTagS dgSU).2) ∧
    ((panelArgsGetStyles elemTagS dgSU 0 0).1 =
        (applyTags elemTagS.type_style warnAxis
          (styleElementGetStyles elemTagS dgSU) (["s"] ++ [])).1 ∧
      warnAxis "u" ∈ (panelArgsGetStyles elemTagS dgSU 0 0).2) := by
  have h := unrecognized_tag_warns_and_continues elemTagS dgSU 0 0 "u" ["s"] [] (by decide)
  exact ⟨h.1 rfl, h.2 rfl⟩

/-- C8: `RowLabel.getStyles` is gated by the COLUMN index (`panel_j ==
self.args['_idx']`) and `ColLabel.getStyles` by the ROW index — the
transposed convention the spec flags.  Whenever the gate matches the
reserved index value the resolved style is non-empty (the element always
holds at least its reserved keys), and otherwise the result is the empty
mapping. -/
theorem rowcol_label_transposed_gating
    (elem : StyleElements.SElem) (dg : DataGrid) (i j : Nat) (idx : Int)
    (hidx : lookup elem.args "_idx" = some (Val.vInt idx)) :
    (((j : Int) = idx → ∃ d, rowLabelGetStyles elem dg i j = Except.ok d ∧ d ≠ []) ∧
     ((j : Int) ≠ idx → rowLabelGetStyles elem dg i j = Except.ok [])) ∧
    (((i : Int) = idx → ∃ d, colLabelGetStyles elem dg i j = Except.ok d ∧ d ≠ []) ∧
     ((i : Int) ≠ idx → colLabelGetStyles elem dg i j = Except.ok [])) := by
  have hne : elem.args ≠ [] := by
    intro hnil
    rw [hnil] at hidx
    simp [lookup] at hidx
  have hnonempty : (panelArgsGetStyles elem dg i j).1 ≠ [] := by
    unfold panelArgsGetStyles
    exact applyTags_ne_nil _ _ _ _ (styleElementGetStyles_ne_nil elem dg hne)
  constructor
  · constructor
    · intro hj
      refine ⟨(panelArgsGetStyles elem dg i j).1, ?_, hnonempty⟩
      simp only [rowLabelGetStyles, hidx]
      rw [if_pos (by rw [hj])]
    · intro hj
      simp only [rowLabelGetStyles, hidx]
      rw [if_neg (fun hc => hj (Val.vInt.inj hc).symm)]
  · constructor
    · intro hi
      refine ⟨(panelArgsGetStyles elem dg i j).1, ?_, hnonempty⟩
      simp only [colLabelGetStyles, hidx]
      rw [if_pos (by rw [hi])]
    · intro hi
      simp only [colLabelGetStyles, hidx]
      rw [if_neg (fun hc => hi (Val.vInt.inj hc).symm)]

/-- Witness for C8: with the default reserved index 1, the row label is
non-empty at column 1 and empty at column 0; the column label is non-empty
at row 1 and empty at row 0. -/
theorem rowcol_label_transposed_gating_witness :
    (∃ d, rowLabelGetStyles labelElem dgSU 0 1 = Except.ok d ∧ d ≠ []) ∧
    rowLabelGetStyles labelElem dgSU 0 0 = Except.ok [] ∧
    (∃ d, colLabelGetStyles labelElem dgSU 1 0 = Except.ok d ∧ d ≠ []) ∧
    colLabelGetStyles labelElem dgSU 0 0 = Except.ok [] := by
  have h1 := rowcol_label_transposed_gating labelElem dgSU 0 1 1 rfl
  have h0 := rowcol_label_transposed_gating labelElem dgSU 0 0 1 rfl
  have h2 := rowcol_label_transposed_gating labelElem dgSU 1 0 1 rfl
  exact ⟨h1.1.1 (by decide), h0.1.2 (by decide), h2.2.1 (by decide), h0.2.2 (by decide)⟩

/-- C9: `StyleRule.__call__` rejects argument counts other than 1, 3, 4
with `ValueError` and a non-`DataGrid` first argument with `TypeError`,
in both cases for EVERY rule (hence before any condition can matter), and
on a well-typed call returns the stored argument mapping exactly when all
conditions hold, the empty mapping otherwise (conjunction semantics). -/
theorem styleRule_call_contract (r : Rule) (xs : List CallArg) :
    (¬ (xs.length = 1 ∨ xs.length = 3 ∨ xs.length = 4) →
      ruleCall r xs =
        Except.error (PyErr.valueErr "Expected arguments of length 1, 3, or 4.")) ∧
    ((xs.length = 1 ∨ xs.length = 3 ∨ xs.length = 4) →
      ¬ (xs.getD 0 CallArg.otherArg).isDG →
      ruleCall r xs =
        Except.error (PyErr.typeErr "First argument must be a DataGrid object.")) ∧
    ((xs.length = 1 ∨ xs.length = 3 ∨ xs.length = 4) →
      (xs.getD 0 CallArg.otherArg).isDG →
      (3 ≤ xs.length → (xs.getD 1 CallArg.otherArg).isInt ∧ (xs.getD 2 CallArg.otherArg).isInt) →
      (xs.length = 4 → (xs.getD 3 CallArg.otherArg).isInt) →
      ruleCall r xs =
        Except.ok (if r.condition.all (fun c => c xs) then r.args else [])) := by
  refine ⟨?_, ?_, ?_⟩
  · intro h
    unfold ruleCall
    rw [if_pos h]
  · intro h1 h2
    unfold ruleCall
    rw [if_neg (not_not_intro h1), if_pos h2]
  · intro h1 h2 h3 h4
    unfold ruleCall
    rw [if_neg (not_not_intro h1), if_neg (not_not_intro h2), if_neg ?_, if_neg ?_]
    · rfl
    · intro hc
      exact hc.2 (h4 hc.1)
    · intro hc
      exact hc.2 (h3 hc.1)

/-- Witness for C9: wrong arity errors, wrong first argument errors, a
well-typed call with a false condition yields `{}`, with a true condition
yields the stored mapping. -/
theorem styleRule_call_contract_witness :
    ruleCall ruleFalse [] =
      Except.error (PyErr.valueErr "Expected arguments of length 1, 3, or 4.") ∧
    ruleCall ruleFalse [CallArg.intArg 5] =
      Except.error (PyErr.typeErr "First argument must be a DataGrid object.") ∧
    ruleCall ruleFalse [CallArg.dgArg dgSU] = Except.ok [] ∧
    ruleCall ruleTrue [CallArg.dgArg dgSU] = Except.ok [("a", Val.vInt 1)] := by
  refine ⟨?_, ?_, ?_, ?_⟩
  · exact (styleRule_call_contract ruleFalse []).1 (by decide)
  · exact (styleRule_call_contract ruleFalse [CallArg.intArg 5]).2.1 (by decide) (by decide)
  · exact ((styleRule_call_contract ruleFalse [CallArg.dgArg dgSU]).2.2 (by left; rfl)
      (by rfl) (by intro h; exact absurd h (by decide)) (by intro h; exact absurd h (by decide))).trans
      (by rfl)
  · exact ((styleRule_call_contract ruleTrue [CallArg.dgArg dgSU]).2.2 (by left; rfl)
      (by rfl) (by intro h; exact absurd h (by decide)) (by intro h; exact absurd h (by decide))).trans
      (by rfl)

/-- C10: a `styles.py` panel-scope element with no rules resolves to the
same mapping for every panel index, so `StyleManager.getStyleGrid`'s
`forAllPanels` optimization (evaluate at panel (0,0) once and share) is
pointwise equal to evaluating each panel individually. -/
theorem forAllPanels_shared_grid_equiv (elem : Styles.SElem) (dg : DataGrid)
    (h : forAllPanels elem = true) :
    ∀ i j : Nat, styleGridShared elem dg i j = styleGridPerPanel elem dg i j := by
  have hnil : elem.rules = [] := by
    unfold forAllPanels at h
    exact List.length_eq_zero.mp (by simpa using h)
  intro i j
  unfold styleGridShared styleGridPerPanel panelSEGetStyles
  rw [hnil]
  rfl

/-- Witness for C10: a rule-free element yields the shared (0,0) style at
an arbitrary other panel index. -/
theorem forAllPanels_shared_grid_equiv_witness :
    styleGridShared panelElemNoRules dgSU 2 3 = styleGridPerPanel panelElemNoRules dgSU 2 3 := by
  exact forAllPanels_shared_grid_equiv panelElemNoRules dgSU rfl 2 3

/-- C4 (amended): `FigSE.getStyles` never mutates the element's stored
configuration — it only APPENDS fresh cells to the store (first conjunct) —
and its result's observable content depends only on the cells the element
references: any store agreeing with the original on those cells (in
particular, the original store after caller mutations confined to the
freshly allocated result cells) yields an identical resolved result
(second conjunct).  What does NOT hold is the claim's full statement: deep
mutation through values merged from fired rules does affect later queries
(see the counterexample theorem). -/
theorem figSE_getStyles_frame (elem : PyHeap.HElem) (dg : DataGrid)
    (s sB : PyHeap.Store)
    (hwf : PyHeap.wfElem s.length elem)
    (hlen : s.length ≤ sB.length)
    (hagree : ∀ a, a < s.length → sB.getD a [] = s.getD a []) :
    (∃ t, (PyHeap.figSEGetStylesH elem dg s).1 = s ++ t) ∧
    PyHeap.resolve (PyHeap.figSEGetStylesH elem dg sB).1
        (PyHeap.figSEGetStylesH elem dg sB).2 =
      PyHeap.resolve (PyHeap.figSEGetStylesH elem dg s).1
        (PyHeap.figSEGetStylesH elem dg s).2 := by
  obtain ⟨hargs, hrules⟩ := hwf
  constructor
  · exact PyHeap.deepcopyH_extends elem.args s
  · obtain ⟨t, ht⟩ := PyHeap.deepcopyH_extends elem.args s
    obtain ⟨tB, htB⟩ := PyHeap.deepcopyH_extends elem.args sB
    have hagreeA : ∀ a, a < s.length →
        ((PyHeap.deepcopyH s elem.args).1).getD a [] = s.getD a [] := by
      intro a ha
      rw [ht]
      exact List.getD_append s t [] a ha
    have hagreeB : ∀ a, a < s.length →
        ((PyHeap.deepcopyH sB elem.args).1).getD a [] = s.getD a [] := by
      intro a ha
      rw [htB, List.getD_append sB tB [] a (lt_of_lt_of_le ha hlen)]
      exact hagree a ha
    have hbase : PyHeap.resolve (PyHeap.deepcopyH sB elem.args).1
        (PyHeap.deepcopyH sB elem.args).2 =
        PyHeap.resolve (PyHeap.deepcopyH s elem.args).1
          (PyHeap.deepcopyH s elem.args).2 := by
      rw [PyHeap.deepcopyH_resolve elem.args sB (PyHeap.wfDict_mono hlen hargs),
        PyHeap.deepcopyH_resolve elem.args s hargs]
      exact PyHeap.resolve_agree s sB hagree elem.args hargs
    have hruleargs : ∀ ru ∈ elem.rules,
        PyHeap.resolve (PyHeap.deepcopyH sB elem.args).1 ru.args =
        PyHeap.resolve (PyHeap.deepcopyH s elem.args).1 ru.args := by
      intro ru hru
      have hwfru := hrules ru hru
      rw [PyHeap.resolve_agree s _ hagreeB ru.args hwfru,
        PyHeap.resolve_agree s _ hagreeA ru.args hwfru]
    simp only [PyHeap.figSEGetStylesH]
    exact PyHeap.applyRulesH_resolve_congr dg elem.rules _ _ _ _ hbase hruleargs

/-- Witness for the amended C4: querying `elemRefDefault` on `storeOne`,
then mutating the fresh copied cell that only the returned mapping
references, leaves the next query's resolved result unchanged. -/
theorem figSE_getStyles_frame_witness :
    (∃ t, (PyHeap.figSEGetStylesH elemRefDefault dgSU storeOne).1 = storeOne ++ t) ∧
    PyHeap.resolve (PyHeap.figSEGetStylesH elemRefDefault dgSU storeMutFresh).1
        (PyHeap.figSEGetStylesH elemRefDefault dgSU storeMutFresh).2 =
      PyHeap.resolve (PyHeap.figSEGetStylesH elemRefDefault dgSU storeOne).1
        (PyHeap.figSEGetStylesH elemRefDefault dgSU storeOne).2 := by
  refine figSE_getStyles_frame elemRefDefault dgSU storeOne storeMutFresh ⟨?_, ?_⟩ ?_ ?_
  · intro kv hkv
    have hkv2 : kv = ("c", PyHeap.HVal.ref 0) := by
      simpa [Inputs.elemRefDefault] using hkv
    rw [hkv2]
    exact Nat.zero_lt_one
  · intro ru hru
    simp [Inputs.elemRefDefault] at hru
  · decide
  · decide

/-- C4 (counterexample to the claim as stated): an element whose
always-firing rule stores `{a: <inner dict at cell 0>}`.  The returned
mapping holds a REFERENCE to the rule's own stored inner dict (first
conjunct), so a caller that deep-mutates the returned mapping's value
(`setCell … 0 …`) changes the resolved result of the next `getStyles`
call from `{b: 1, a: {x: 1}}` to `{b: 1, a: {x: 99}}`. -/
theorem figSE_getStyles_alias_mutation :
    (PyHeap.figSEGetStylesH elemAliasRule dgSU storeOne).2 =
        [("b", PyHeap.HVal.int 1), ("a", PyHeap.HVal.ref 0)] ∧
    PyHeap.resolve (PyHeap.figSEGetStylesH elemAliasRule dgSU storeOne).1
        (PyHeap.figSEGetStylesH elemAliasRule dgSU storeOne).2 =
      [("b", Sum.inl 1), ("a", Sum.inr [("x", 1)])] ∧
    PyHeap.resolve
        (PyHeap.figSEGetStylesH elemAliasRule dgSU
          (PyHeap.setCell (PyHeap.figSEGetStylesH elemAliasRule dgSU storeOne).1 0
            [("x", 99)])).1
        (PyHeap.figSEGetStylesH elemAliasRule dgSU
          (PyHeap.setCell (PyHeap.figSEGetStylesH elemAliasRule dgSU storeOne).1 0
            [("x", 99)])).2 =
      [("b", Sum.inl 1), ("a", Sum.inr [("x", 99)])] ∧
    [("b", (Sum.inl 1 : Sum Int PyHeap.Cell)), ("a", Sum.inr [("x", 1)])] ≠
      [("b", Sum.inl 1), ("a", Sum.inr [("x", 99)])] := by
  refine ⟨by decide, by decide, by decide, by decide⟩
